import Mathlib

/-!
Verification of the iterative multi-expert analysis orchestrator
(`src/core/expert.py`, `src/core/chain.py`, `src/core/iteration.py`)
against its natural-language specification.

The Python code is shallowly embedded: pure string manipulation becomes
functions on `List Char`, Python `dict`/`set` semantics are made explicit,
fallible operations return `Except`, and the external LLM / search providers
become oracle functions passed in as parameters.
-/

/-! ## Python string primitives -/

/-- Python `str.lower()` restricted to the per-character case mapping
(`Char.toLower`); identical on the ASCII and CJK text this program uses. -/
def pyLower (s : List Char) : List Char :=
  s.map Char.toLower

/-- Boolean prefix test on character lists (`==` on each character). -/
def isPrefixOfB : List Char → List Char → Bool
  | [], _ => true
  | _ :: _, [] => false
  | a :: as, b :: bs => a == b && isPrefixOfB as bs

/-- Python `pat in s` membership test: some contiguous slice of `s`
equals `pat` (the empty pattern is contained in every string). -/
def pyIn (pat : List Char) : List Char → Bool
  | [] => pat.isEmpty
  | c :: rest => isPrefixOfB pat (c :: rest) || pyIn pat rest

/-- Left-to-right non-overlapping scan for a non-empty pattern; the fuel
argument is always called with the length of the scanned list, which bounds
the number of scan steps (every step consumes at least one character), so
the fuel-exhausted branch is never reached. -/
def pyCountAux (pat : List Char) : Nat → List Char → Nat
  | _, [] => 0
  | 0, _ :: _ => 0
  | fuel + 1, c :: rest =>
    if isPrefixOfB pat (c :: rest) then
      pyCountAux pat fuel (List.drop (pat.length - 1) rest) + 1
    else
      pyCountAux pat fuel rest

/-- Python `s.count(pat)`: number of non-overlapping occurrences of `pat`
in `s`, scanning left to right (`"".count` inside `s` is `len(s)+1`). -/
def pyCount (s pat : List Char) : Nat :=
  match pat with
  | [] => s.length + 1
  | _ :: _ => pyCountAux pat s.length s

/-- Python `s.split()` (no argument): split on runs of whitespace,
discarding empty pieces. -/
def pySplitWs (s : List Char) : List (List Char) :=
  match s with
  | [] => []
  | c :: rest =>
    if c.isWhitespace then pySplitWs rest
    else
      match pySplitWs rest with
      | [] => [[c]]
      | w :: ws =>
        match rest with
        | [] => [[c]]
        | d :: _ => if d.isWhitespace then [c] :: w :: ws else (c :: w) :: ws

/-- Python `s.find(ch)`: index of the first occurrence, `-1` if absent. -/
def pyFind (s : List Char) (ch : Char) : Int :=
  match s.findIdx? (· == ch) with
  | some i => (i : Int)
  | none => -1

/-- Python `s.rfind(ch)`: index of the last occurrence, `-1` if absent. -/
def pyRFind (s : List Char) (ch : Char) : Int :=
  match s.reverse.findIdx? (· == ch) with
  | some i => ((s.length - 1 - i : Nat) : Int)
  | none => -1

/-! ## Stable sort

Python's `list.sort(key=...)` is a stable ascending sort.  We embed it as a
stable insertion sort on a boolean `le` relation: an element is inserted
before the first element it is `le`-below-or-equal to, which preserves the
original relative order of key-equal elements exactly as Timsort does. -/

/-- Insert `x` into `l` before the first `y` with `le x y`. -/
def insertLe (le : α → α → Bool) (x : α) : List α → List α
  | [] => [x]
  | y :: ys => if le x y then x :: y :: ys else y :: insertLe le x ys

/-- Stable insertion sort by the boolean relation `le`. -/
def sortLe (le : α → α → Bool) : List α → List α
  | [] => []
  | x :: xs => insertLe le x (sortLe le xs)

/-! ## Expert data model (`src/core/expert.py`) -/

/-- `ExpertMetadata` from `expert.py`: metadata block of an `EXPERT.md`. -/
structure ExpertMetadata where
  emoji : String := "🤖"
  priority : Int := 1
  domains : List String := []
deriving DecidableEq, Repr

/-- `Expert` from `expert.py` (the `source_path` field, a filesystem path
irrelevant to the orchestration logic, is omitted). -/
structure Expert where
  name : String
  description : String
  metadata : ExpertMetadata := {}
  system_prompt : String
deriving DecidableEq, Repr

/-- `Expert.matches_query`: some domain keyword is a (case-insensitive)
substring of the query, or some description word longer than 3 characters
is a substring of the query. -/
def Expert.matches_query (e : Expert) (query : String) : Bool :=
  let query_lower := pyLower query.data
  e.metadata.domains.any (fun d => pyIn (pyLower d.data) query_lower) ||
    (pySplitWs (pyLower e.description.data)).any
      (fun w => decide (3 < w.length) && pyIn w query_lower)

/-- Effective relevance key used by `find_relevant_experts`: the expert's
priority when it matches the query, `priority + 100` otherwise. -/
def effectiveKey (query : String) (e : Expert) : Int :=
  if e.matches_query query then e.metadata.priority else e.metadata.priority + 100

/-- `ExpertLoader.find_relevant_experts`, applied to the expert list
returned by `self.load_all()`: score every expert with `effectiveKey`,
stable-sort ascending by the score, return the first `max_experts`. -/
def find_relevant_experts (all_experts : List Expert) (query : String)
    (max_experts : Nat := 4) : List Expert :=
  let scored := all_experts.map (fun e => (e, effectiveKey query e))
  let sorted := sortLe (fun a b => decide (a.2 ≤ b.2)) scored
  (sorted.take max_experts).map (·.1)

/-! ## Expert loader cache (`ExpertLoader.load_all`)

The loader's `_cache` is a Python `dict[str, Expert]`, i.e. an
insertion-ordered association list where updating an existing key keeps
its position.  A directory scan yields, per subdirectory, either a parsed
`Expert` or a per-file parse failure (logged and skipped), modelled as
`Option Expert`. -/

/-- Python `dict` insert: update in place if the key exists, else append. -/
def dictInsert (d : List (String × Expert)) (k : String) (v : Expert) :
    List (String × Expert) :=
  if d.any (fun p => p.1 == k) then
    d.map (fun p => if p.1 == k then (k, v) else p)
  else
    d ++ [(k, v)]

/-- `ExpertLoader` mutable state: the `_cache` dict. -/
structure LoaderState where
  cache : List (String × Expert) := []
deriving DecidableEq, Repr

/-- `ExpertLoader.load_all`: if the cache is non-empty and no reload is
forced, return the cached values in dict order; otherwise clear the cache,
parse each directory entry (skipping failures), record each expert in the
cache under its name and append it to the result list, and finally sort the
result list ascending by priority.  Returns the list and the new state. -/
def load_all (dir_entries : List (Option Expert)) (s : LoaderState)
    (reload : Bool := false) : List Expert × LoaderState :=
  if s.cache ≠ [] ∧ reload = false then
    (s.cache.map (·.2), s)
  else
    let loaded := dir_entries.foldl
      (fun (acc : List (String × Expert) × List Expert) entry =>
        match entry with
        | none => acc
        | some e => (dictInsert acc.1 e.name e, acc.2 ++ [e]))
      ([], [])
    let experts := sortLe
      (fun a b => decide (a.metadata.priority ≤ b.metadata.priority)) loaded.2
    (experts, { cache := loaded.1 })


/-! ## Analysis chain data model (`src/core/chain.py`) -/

/-- `SearchResult` from `chain.py`: a plain `@dataclass` (with the default
`eq=True`, `frozen=False`). -/
structure SearchResult where
  title : String
  url : String
  snippet : String
  content : Option String := none
deriving DecidableEq, Repr

/-- `ExpertAnalysis` from `chain.py`. -/
structure ExpertAnalysis where
  expert_name : String
  expert_emoji : String
  analysis : String
  key_points : List String := []
deriving DecidableEq, Repr

/-- `AnalysisResult` from `chain.py` (the wall-clock `timestamp` field is
omitted from the embedding). -/
structure AnalysisResult where
  question : String
  search_results : List SearchResult
  expert_analyses : List ExpertAnalysis
  consensus : String
  iteration_count : Nat
deriving DecidableEq, Repr

/-- A raised Python exception, by type and message. -/
inductive PyError where
  | typeError (msg : String)
deriving DecidableEq, Repr

/-- Hashing a `SearchResult`.  Because `SearchResult` is declared with a
bare `@dataclass` decorator (`eq=True`, `frozen=False`), Python sets the
generated class's `__hash__` to `None`, so hashing any instance raises
`TypeError: unhashable type: 'SearchResult'`. -/
def pyHash (_ : SearchResult) : Except PyError Nat :=
  Except.error (PyError.typeError "unhashable type: 'SearchResult'")

/-- Python `list(set(xs))` on a list of `SearchResult`: `set` hashes each
element in turn (raising on the first unhashable one) and drops elements
equal to an already-inserted one. -/
def pySetList (xs : List SearchResult) : Except PyError (List SearchResult) :=
  xs.foldlM
    (fun acc x => do
      let _ ← pyHash x
      pure (if acc.contains x then acc else acc ++ [x]))
    []

/-- One round's parallel expert fan-out: the `asyncio.gather` over
`analyze_with_expert` tasks in `AnalysisChain.run`.  `gen` models
`llm_manager.analyze_with_expert` under the round's shared question and
context: generated analysis text, or a raised exception message.  Every
task is created exactly once (`tasks` is built by a comprehension over
`experts`; no per-expert retry exists).  With `return_exceptions` left at
its default, `gather` re-raises the exception of a failing task unchanged
— it carries no expert identity and no wrapper attaches one — and all
completed results are discarded, so a failed round yields no
`ExpertAnalysis` values.  (When several tasks fail, the surfaced
exception is that of whichever task raised first in time; the model
deterministically surfaces the first failing task in list order, which is
the sole failing task in the single-failure case.) -/
def run_round (gen : Expert → Except String String) (experts : List Expert) :
    Except String (List ExpertAnalysis) :=
  match experts.find? (fun e => !(gen e).isOk) with
  | some e =>
    (match gen e with
     | Except.error msg => Except.error msg
     | Except.ok _ => Except.error "")
  | none =>
    Except.ok (experts.filterMap (fun e =>
      (gen e).toOption.map (fun text =>
        { expert_name := e.name
          expert_emoji := e.metadata.emoji
          analysis := text })))

/-! ## Consensus evaluator (`IterativeAnalyzer._calculate_consensus`) -/

/-- The fixed agreement keyword list from `_calculate_consensus`. -/
def agreement_keywords : List String :=
  ["同意", "一致", "相似", "支持", "认同", "agree", "similar"]

/-- The fixed disagreement keyword list from `_calculate_consensus`. -/
def disagreement_keywords : List String :=
  ["不同意", "分歧", "反对", "质疑", "disagree", "differ"]

/-- `total_agreement`: occurrences of each agreement keyword in each
lowercased analysis text, summed. -/
def totalAgreement (analyses : List ExpertAnalysis) : Nat :=
  (analyses.map (fun a =>
    (agreement_keywords.map (fun kw =>
      pyCount (pyLower a.analysis.data) kw.data)).sum)).sum

/-- `total_disagreement`: occurrences of each disagreement keyword in each
lowercased analysis text, summed. -/
def totalDisagreement (analyses : List ExpertAnalysis) : Nat :=
  (analyses.map (fun a =>
    (disagreement_keywords.map (fun kw =>
      pyCount (pyLower a.analysis.data) kw.data)).sum)).sum

/-- Python two-argument `min`: the second argument wins only when it is
strictly smaller. -/
def pyMin (a b : ℚ) : ℚ := if b < a then b else a

/-- Python two-argument `max`: the second argument wins only when it is
strictly larger. -/
def pyMax (a b : ℚ) : ℚ := if a < b then b else a

/-- `IterativeAnalyzer._calculate_consensus`, with exact rational
arithmetic in place of IEEE doubles (all constants and the quantities the
claims mention are exactly representable). -/
def calculate_consensus (analyses : List ExpertAnalysis) : ℚ :=
  if analyses.length < 2 then 1
  else
    let ta := totalAgreement analyses
    let td := totalDisagreement analyses
    if ta + td = 0 then 7/10
    else
      let score : ℚ := (ta : ℚ) / ((ta : ℚ) + (td : ℚ) + 1)
      pyMin 1 (pyMax 0 (1/2 + score * (1/2)))

/-! ## Gap identifier (`IterativeAnalyzer._identify_gaps`) -/

/-- The parsing stage of `_identify_gaps` applied to the raw LLM response.
`jsonLoads` abstracts `json.loads` composed with `data.get("gaps", [])`
and `data.get("queries", [])`: `some (gaps, queries)` models a successful
parse of the substring, `none` a raised parse exception.  On an exception
the handler returns the raw response truncated to 200 characters as the
single gap; when no brace-delimited candidate exists, nothing is attempted
and the initial empty lists are returned. -/
def identify_gaps (jsonLoads : String → Option (List String × List String))
    (response : String) : List String × List String :=
  let cs := response.data
  let start := pyFind cs '{'
  let stop := pyRFind cs '}' + 1
  if 0 ≤ start ∧ start < stop then
    match jsonLoads (String.mk ((cs.drop start.toNat).take (stop - start).toNat)) with
    | some (gaps, queries) => (gaps, queries)
    | none => ([String.mk (cs.take 200)], [])
  else
    ([], [])

/-- Modelled from the spec's parsing-policy words: "locate the first `{`
and the last `}` in the raw response" and parse "that substring"; `none`
when there is no first-`{`-to-last-`}` substring to attempt. -/
def braceDelimited (raw : String) : Option String :=
  let cs := raw.data
  let start := pyFind cs '{'
  let stop := pyRFind cs '}' + 1
  if 0 ≤ start ∧ start < stop then
    some (String.mk ((cs.drop start.toNat).take (stop - start).toNat))
  else
    none


/-! ## Iteration controller (`IterativeAnalyzer.run`)

The external collaborators are oracles indexed by the round number:
`roundFn i q` models `self.chain.run(question=q, ...)` in round `i`
(returning an `AnalysisResult` or raising), and `gapFn i r` models the
pair `(gaps, supplemental_queries)` that `_identify_gaps` produces after
round `i` finished with result `r`.  The loop state mirrors the Python
local variables `current_query`, `all_search_results`, `iteration` and
`result`; the first argument is the number of remaining rounds
(`max_iterations - iteration`), on which the recursion is structural. -/

/-- The enriched query for the next round: the original question plus a
digest of the first two supplemental queries. -/
def supplementQuery (query : String) (queries : List String) : String :=
  query ++ "\n\n补充信息需求：" ++ String.intercalate "; " (queries.take 2)

/-- Attach the terminal bookkeeping to a result: set `iteration_count` and
replace `search_results` by `list(set(all_search_results))`, which may
raise (see `pySetList`). -/
def finalizeResult (r : AnalysisResult) (iteration : Nat)
    (acc : List SearchResult) : Except PyError AnalysisResult :=
  match pySetList acc with
  | Except.error e => Except.error e
  | Except.ok deduped =>
    Except.ok { r with iteration_count := iteration, search_results := deduped }

/-- The `while iteration < self.max_iterations` loop of
`IterativeAnalyzer.run`, from a state where `remaining` rounds may still
run.  Returns the final `result` (which Python leaves as `None` when no
round ever ran) together with the number of rounds executed. -/
def runAux (roundFn : Nat → String → Except PyError AnalysisResult)
    (gapFn : Nat → AnalysisResult → List String × List String)
    (threshold : ℚ) (query : String) :
    Nat → Nat → String → List SearchResult → Option AnalysisResult →
    Except PyError (Option AnalysisResult × Nat)
  | 0, iteration, _, acc, last =>
    match last with
    | some r =>
      (match finalizeResult r iteration acc with
       | Except.error e => Except.error e
       | Except.ok final => Except.ok (some final, iteration))
    | none => Except.ok (none, iteration)
  | remaining + 1, iteration, current_query, acc, _ =>
    match roundFn (iteration + 1) current_query with
    | Except.error e => Except.error e
    | Except.ok r =>
      let acc' := acc ++ r.search_results
      if threshold ≤ calculate_consensus r.expert_analyses then
        match finalizeResult r (iteration + 1) acc' with
        | Except.error e => Except.error e
        | Except.ok final => Except.ok (some final, iteration + 1)
      else if 0 < remaining then
        let gq := gapFn (iteration + 1) r
        if gq.2 = [] then
          match finalizeResult r (iteration + 1) acc' with
          | Except.error e => Except.error e
          | Except.ok final => Except.ok (some final, iteration + 1)
        else
          runAux roundFn gapFn threshold query remaining (iteration + 1)
            (supplementQuery query gq.2) acc' (some r)
      else
        runAux roundFn gapFn threshold query remaining (iteration + 1)
          current_query acc' (some r)

/-- `IterativeAnalyzer.run` with round budget `max_iterations` and
consensus threshold `threshold` on question `query`. -/
def iterRun (roundFn : Nat → String → Except PyError AnalysisResult)
    (gapFn : Nat → AnalysisResult → List String × List String)
    (threshold : ℚ) (max_iterations : Nat) (query : String) :
    Except PyError (Option AnalysisResult × Nat) :=
  runAux roundFn gapFn threshold query max_iterations 0 query [] none


/-! ## Concrete objects used in witnesses and counterexamples -/

deriving instance DecidableEq for Except

/-- A priority-1 expert over the "stock" domain (the spec's expert `A`). -/
def expertA : Expert :=
  { name := "A", description := ""
    metadata := { priority := 1, domains := ["stock"] }
    system_prompt := "pa" }

/-- A priority-2 expert over the "policy" domain (the spec's expert `B`). -/
def expertB : Expert :=
  { name := "B", description := ""
    metadata := { priority := 2, domains := ["policy"] }
    system_prompt := "pb" }

/-- A third expert, priority 3, no domains. -/
def expertC : Expert :=
  { name := "C", description := ""
    metadata := { priority := 3, domains := [] }
    system_prompt := "pc" }

/-- An analysis whose text is exactly the word `disagree`. -/
def anDisagree : ExpertAnalysis :=
  { expert_name := "x", expert_emoji := "🤖", analysis := "disagree" }

/-- A concrete search result. -/
def sampleSearchResult : SearchResult :=
  { title := "t", url := "u", snippet := "s" }

/-- A round result carrying no search results and no analyses. -/
def emptyRoundResult : AnalysisResult :=
  { question := "q", search_results := [], expert_analyses := []
    consensus := "c", iteration_count := 0 }

/-- A round result carrying one search result and no analyses. -/
def oneHitRoundResult : AnalysisResult :=
  { question := "q", search_results := [sampleSearchResult]
    expert_analyses := [], consensus := "c", iteration_count := 0 }

/-- A round oracle that always returns the given result. -/
def constRound (r : AnalysisResult) :
    Nat → String → Except PyError AnalysisResult :=
  fun _ _ => Except.ok r

/-- A gap oracle that never proposes supplemental queries. -/
def noGaps : Nat → AnalysisResult → List String × List String :=
  fun _ _ => ([], [])

/-- A `json.loads` oracle modelling a parse that always raises. -/
def jsonLoadsFail : String → Option (List String × List String) :=
  fun _ => none

/-- A generation oracle that raises exactly for the expert named "B". -/
def genFailB : Expert → Except String String :=
  fun e => if e.name = "B" then Except.error "boom" else Except.ok "fine"

/-- A generation oracle that raises exactly for the expert named "C",
with the same exception message as `genFailB`. -/
def genFailC : Expert → Except String String :=
  fun e => if e.name = "C" then Except.error "boom" else Except.ok "fine"

/-! ## Helper lemmas -/

theorem mem_insertLe (le : α → α → Bool) (x : α) (l : List α) (b : α) :
    b ∈ insertLe le x l ↔ b = x ∨ b ∈ l := by
  induction l with
  | nil => simp [insertLe]
  | cons y ys ih =>
    by_cases hxy : le x y
    · simp [insertLe, hxy]
    · simp only [insertLe, hxy, if_neg, Bool.false_eq_true, ite_false,
        List.mem_cons, ih]
      tauto

theorem mem_sortLe (le : α → α → Bool) (l : List α) (b : α) :
    b ∈ sortLe le l ↔ b ∈ l := by
  induction l with
  | nil => simp [sortLe]
  | cons x xs ih =>
    simp only [sortLe, mem_insertLe, List.mem_cons, ih]

theorem pairwise_insertLe (le : α → α → Bool)
    (htrans : ∀ a b c, le a b = true → le b c = true → le a c = true)
    (htot : ∀ a b, le a b = true ∨ le b a = true)
    (x : α) (l : List α) (hl : l.Pairwise (fun a b => le a b = true)) :
    (insertLe le x l).Pairwise (fun a b => le a b = true) := by
  induction l with
  | nil => simp [insertLe]
  | cons y ys ih =>
    rcases List.pairwise_cons.mp hl with ⟨hy, hys⟩
    by_cases hxy : le x y
    · simp only [insertLe, hxy, ite_true]
      refine List.pairwise_cons.mpr ⟨?_, hl⟩
      intro b hb
      rcases List.mem_cons.mp hb with rfl | hb
      · exact hxy
      · exact htrans _ _ _ hxy (hy _ hb)
    · simp only [insertLe, hxy, Bool.false_eq_true, ite_false]
      refine List.pairwise_cons.mpr ⟨?_, ih hys⟩
      intro b hb
      rcases (mem_insertLe le x ys b).mp hb with rfl | hb
      · rcases htot b y with h | h
        · exact absurd h hxy
        · exact h
      · exact hy _ hb

theorem pairwise_sortLe (le : α → α → Bool)
    (htrans : ∀ a b c, le a b = true → le b c = true → le a c = true)
    (htot : ∀ a b, le a b = true ∨ le b a = true) (l : List α) :
    (sortLe le l).Pairwise (fun a b => le a b = true) := by
  induction l with
  | nil => simp [sortLe]
  | cons x xs ih => exact pairwise_insertLe le htrans htot x _ ih


/-! ## Claim theorems -/

/-- C5: for every input list of fewer than 2 expert analyses, the
consensus score function returns exactly 1.0. -/
theorem consensus_small_set_one (analyses : List ExpertAnalysis)
    (h : analyses.length < 2) : calculate_consensus analyses = 1 := by
  unfold calculate_consensus
  rw [if_pos h]

/-- Witness for `consensus_small_set_one` at the empty analysis list. -/
theorem consensus_small_set_one_witness :
    ([] : List ExpertAnalysis).length < 2 ∧ calculate_consensus [] = 1 :=
  ⟨by decide, consensus_small_set_one [] (by decide)⟩

/-- C10: configured with a round budget of 0, the iteration controller
executes no rounds and returns Python `None` in place of an
`AnalysisResult` (and round count 0), rather than raising or returning a
result with `iteration_count` 0. -/
theorem iterRun_zero_budget (roundFn : Nat → String → Except PyError AnalysisResult)
    (gapFn : Nat → AnalysisResult → List String × List String)
    (threshold : ℚ) (query : String) :
    iterRun roundFn gapFn threshold 0 query = Except.ok (none, 0) := rfl

/-- C2: the claimed always-succeeding dedup step in fact raises
`TypeError` on every non-empty accumulated list, because `SearchResult` is
a non-frozen `eq` dataclass and therefore unhashable; consequently a run
that reaches a terminal transition with at least one accumulated search
result raises instead of attaching deduplicated results. -/
theorem dedup_unhashable_raises :
    (∀ (x : SearchResult) (xs : List SearchResult),
        pySetList (x :: xs) =
          Except.error (PyError.typeError "unhashable type: 'SearchResult'")) ∧
    iterRun (constRound oneHitRoundResult) noGaps 1 1 "q" =
      Except.error (PyError.typeError "unhashable type: 'SearchResult'") :=
  ⟨fun _ _ => rfl, rfl⟩

/-- C1 counterexample: on the braceless response `"not json at all"` the
gap identifier returns no gap entries and no queries — not a single gap
entry holding the truncated raw response as the claim states. -/
theorem identify_gaps_braceless_counterexample :
    identify_gaps jsonLoadsFail "not json at all" = ([], []) ∧
    identify_gaps jsonLoadsFail "not json at all" ≠ (["not json at all"], []) :=
  ⟨rfl, by decide⟩

/-- C1 (amended): the gap identifier never raises; when a
first-`{`-to-last-`}` substring exists but fails to parse, it returns
exactly one gap entry — the raw response truncated to 200 characters — and
no queries; when no such substring exists (e.g. a braceless response),
no parse is attempted and it returns zero gap entries and no queries. -/
theorem identify_gaps_amended
    (jsonLoads : String → Option (List String × List String)) (response : String) :
    (∀ sub, braceDelimited response = some sub → jsonLoads sub = none →
        identify_gaps jsonLoads response =
          ([String.mk (response.data.take 200)], [])) ∧
    (braceDelimited response = none →
        identify_gaps jsonLoads response = ([], [])) := by
  constructor
  · intro sub hsub hparse
    simp only [braceDelimited] at hsub
    simp only [identify_gaps]
    by_cases h : 0 ≤ pyFind response.data '{' ∧
        pyFind response.data '{' < pyRFind response.data '}' + 1
    · rw [if_pos h] at hsub ⊢
      injection hsub with hsub
      subst hsub
      rw [hparse]
    · rw [if_neg h] at hsub
      exact Option.noConfusion hsub
  · intro hnone
    simp only [braceDelimited] at hnone
    simp only [identify_gaps]
    by_cases h : 0 ≤ pyFind response.data '{' ∧
        pyFind response.data '{' < pyRFind response.data '}' + 1
    · rw [if_pos h] at hnone
      exact Option.noConfusion hnone
    · rw [if_neg h]

/-- Witness for `identify_gaps_amended` on a failing parse (`"{x}"`) and a
braceless response. -/
theorem identify_gaps_amended_witness :
    identify_gaps jsonLoadsFail "{x}" = ([String.mk ("{x}".data.take 200)], []) ∧
    identify_gaps jsonLoadsFail "plain text" = ([], []) :=
  ⟨(identify_gaps_amended jsonLoadsFail "{x}").1 "{x}" (by decide) rfl,
   (identify_gaps_amended jsonLoadsFail "plain text").2 (by decide)⟩


/-- C9: keyword counting is case-insensitive substring counting, so the
word `disagree` also contains one occurrence of the agreement keyword
`agree`; two analyses whose texts are exactly `disagree` yield agreement
count 2, disagreement count 2, and consensus score 0.7. -/
theorem consensus_disagree_substring_example :
    pyCount (pyLower anDisagree.analysis.data) "agree".data = 1 ∧
    pyCount (pyLower anDisagree.analysis.data) "disagree".data = 1 ∧
    totalAgreement [anDisagree, anDisagree] = 2 ∧
    totalDisagreement [anDisagree, anDisagree] = 2 ∧
    calculate_consensus [anDisagree, anDisagree] = 7/10 := by
  refine ⟨by decide, by decide, by decide, by decide, ?_⟩
  have hta : totalAgreement [anDisagree, anDisagree] = 2 := by decide
  have htd : totalDisagreement [anDisagree, anDisagree] = 2 := by decide
  simp only [calculate_consensus, hta, htd]
  norm_num [pyMin, pyMax]

/-- C8: for 2 or more analyses the consensus score is strictly below 1:
it is either the neutral default `0.7` or of the clamped form
`0.5 + (a/(a+d+1))·0.5` with `a/(a+d+1) < 1`; hence with a consensus
threshold of 1.0 the consensus-reached termination is unreachable. -/
theorem consensus_lt_one_of_two_or_more (analyses : List ExpertAnalysis)
    (h : 2 ≤ analyses.length) :
    calculate_consensus analyses < 1 ∧
    (calculate_consensus analyses = 7/10 ∨
      ∃ a d : ℕ,
        calculate_consensus analyses =
          1/2 + ((a : ℚ) / ((a : ℚ) + (d : ℚ) + 1)) * (1/2) ∧
        ((a : ℚ) / ((a : ℚ) + (d : ℚ) + 1)) < 1) := by
  have hlen : ¬ analyses.length < 2 := by omega
  simp only [calculate_consensus, if_neg hlen]
  by_cases hz : totalAgreement analyses + totalDisagreement analyses = 0
  · rw [if_pos hz]
    norm_num
  · rw [if_neg hz]
    set ta := totalAgreement analyses with hta
    set td := totalDisagreement analyses with htd
    have hdenpos : (0 : ℚ) < (ta : ℚ) + (td : ℚ) + 1 := by positivity
    have hscore_nonneg : (0:ℚ) ≤ (ta : ℚ) / ((ta : ℚ) + (td : ℚ) + 1) :=
      div_nonneg (by positivity) (le_of_lt hdenpos)
    have hscore_lt : (ta : ℚ) / ((ta : ℚ) + (td : ℚ) + 1) < 1 := by
      rw [div_lt_one hdenpos]
      have htd0 : (0:ℚ) ≤ (td : ℚ) := by positivity
      linarith
    set sc := (ta : ℚ) / ((ta : ℚ) + (td : ℚ) + 1) with hsc
    have hx_pos : (0:ℚ) < 1/2 + sc * (1/2) := by linarith
    have hx_lt : 1/2 + sc * (1/2) < 1 := by linarith
    have hmax : pyMax 0 (1/2 + sc * (1/2)) = 1/2 + sc * (1/2) := by
      unfold pyMax; rw [if_pos hx_pos]
    have hmin : pyMin 1 (1/2 + sc * (1/2)) = 1/2 + sc * (1/2) := by
      unfold pyMin; rw [if_pos hx_lt]
    rw [hmax, hmin]
    exact ⟨hx_lt, Or.inr ⟨ta, td, rfl, hscore_lt⟩⟩

/-- Witness for `consensus_lt_one_of_two_or_more` at two `disagree`
analyses. -/
theorem consensus_lt_one_of_two_or_more_witness :
    2 ≤ ([anDisagree, anDisagree] : List ExpertAnalysis).length ∧
    calculate_consensus [anDisagree, anDisagree] < 1 :=
  ⟨by decide,
   (consensus_lt_one_of_two_or_more [anDisagree, anDisagree] (by decide)).1⟩


/-- When one expert's generation call fails and all others succeed, the
first failing entry found by the round's failure scan is that expert. -/
theorem find?_failing_expert (gen : Expert → Except String String)
    (e : Expert) (cause : String) (hfail : gen e = Except.error cause) :
    ∀ experts : List Expert, e ∈ experts →
      (∀ e' ∈ experts, e' ≠ e → (gen e').isOk = true) →
      experts.find? (fun x => !(gen x).isOk) = some e := by
  intro experts
  induction experts with
  | nil => intro he; cases he
  | cons x xs ih =>
    intro he hok
    by_cases hx : x = e
    · subst hx
      have hno : (gen x).isOk = false := by rw [hfail]; rfl
      simp [List.find?, hno]
    · have hxok : (gen x).isOk = true :=
        hok x (List.mem_cons_self x xs) hx
      have he' : e ∈ xs := by
        rcases List.mem_cons.mp he with h | h
        · exact absurd h.symm hx
        · exact h
      simp only [List.find?, hxok, Bool.not_true]
      exact ih he' (fun e' h' hne => hok e' (List.mem_cons_of_mem _ h') hne)

/-- C3 counterexample: two rounds over the same three experts in which a
different expert (B, then C) fails with the same raised message surface
identical round-level failures, so the surfaced failure cannot name the
failing expert — no `ExpertAnalysisFailed` wrapper or name-attaching
exists in the code. -/
theorem run_round_unnamed_failure_counterexample :
    run_round genFailB [expertA, expertB, expertC] = Except.error "boom" ∧
    run_round genFailC [expertA, expertB, expertC] = Except.error "boom" ∧
    run_round genFailB [expertA, expertB, expertC] =
      run_round genFailC [expertA, expertB, expertC] :=
  ⟨rfl, rfl, rfl⟩

/-- C3 (amended): if exactly one of the fanned-out generation calls
raises, the round returns no `ExpertAnalysis` values at all and
propagates that expert's underlying exception unchanged (no wrapper
attaches the expert's name); each call is issued once and no per-expert
retry exists in `run_round`. -/
theorem run_round_single_failure_propagates
    (gen : Expert → Except String String) (experts : List Expert)
    (e : Expert) (cause : String)
    (he : e ∈ experts) (hfail : gen e = Except.error cause)
    (hok : ∀ e' ∈ experts, e' ≠ e → (gen e').isOk = true) :
    run_round gen experts = Except.error cause := by
  unfold run_round
  rw [find?_failing_expert gen e cause hfail experts he hok]
  dsimp only
  rw [hfail]

/-- Witness for `run_round_single_failure_propagates`: three experts
where exactly the one named "B" raises. -/
theorem run_round_single_failure_propagates_witness :
    expertB ∈ [expertA, expertB, expertC] ∧
    genFailB expertB = Except.error "boom" ∧
    run_round genFailB [expertA, expertB, expertC] = Except.error "boom" :=
  ⟨by decide, rfl,
   run_round_single_failure_propagates genFailB [expertA, expertB, expertC]
     expertB "boom" (by decide) rfl (by decide)⟩


/-- C4 counterexample: after a first `load_all` populated the cache (scan
order B then A, with priorities 2 and 1), a second call served from the
cache returns `[B, A]` — the dict insertion order — which is not sorted
ascending by priority. -/
theorem load_all_cached_unsorted_counterexample :
    (load_all [some expertB, some expertA]
        (load_all [some expertB, some expertA] { cache := [] } false).2 false).1
      = [expertB, expertA] ∧
    ¬ List.Pairwise
        (fun a b : Expert => a.metadata.priority ≤ b.metadata.priority)
        (load_all [some expertB, some expertA]
          (load_all [some expertB, some expertA] { cache := [] } false).2 false).1 :=
  ⟨rfl, by decide⟩

/-- C4 (amended): a `load_all` call that actually scans the backing store
(empty cache, or reload forced) returns the experts sorted ascending by
priority; calls served from the populated cache instead return the cached
records in dict insertion order, which need not be sorted. -/
theorem load_all_fresh_sorted (dir_entries : List (Option Expert))
    (s : LoaderState) (reload : Bool)
    (h : s.cache = [] ∨ reload = true) :
    List.Pairwise (fun a b : Expert => a.metadata.priority ≤ b.metadata.priority)
      (load_all dir_entries s reload).1 := by
  unfold load_all
  have hguard : ¬ (s.cache ≠ [] ∧ reload = false) := by
    rcases h with h | h
    · intro hc; exact hc.1 h
    · intro hc; rw [h] at hc; exact Bool.noConfusion hc.2
  rw [if_neg hguard]
  dsimp only
  refine List.Pairwise.imp ?_ (pairwise_sortLe _ ?_ ?_ _)
  · intro a b hab
    simpa using hab
  · intro a b c hab hbc
    simp only [decide_eq_true_eq] at *
    omega
  · intro a b
    rcases le_total a.metadata.priority b.metadata.priority with h' | h'
    · left; simpa using h'
    · right; simpa using h'

/-- Witness for `load_all_fresh_sorted` on a fresh (empty-cache) load of
the B-then-A directory. -/
theorem load_all_fresh_sorted_witness :
    (({} : LoaderState).cache = [] ∨ false = true) ∧
    List.Pairwise (fun a b : Expert => a.metadata.priority ≤ b.metadata.priority)
      (load_all [some expertB, some expertA] {} false).1 :=
  ⟨Or.inl rfl,
   load_all_fresh_sorted [some expertB, some expertA] {} false (Or.inl rfl)⟩

/-- C6: `find_relevant_experts` returns experts in ascending order of the
effective key (priority if the expert matches the query, priority + 100
otherwise), keeping the first `limit`; in particular, for experts A
(priority 1, domain "stock") and B (priority 2, domain "policy") and the
query "stock outlook" it returns `[A, B]` in that order. -/
theorem find_relevant_experts_sorted_and_example :
    (∀ (all_experts : List Expert) (query : String) (limit : Nat),
        List.Pairwise
          (fun a b => effectiveKey query a ≤ effectiveKey query b)
          (find_relevant_experts all_experts query limit)) ∧
    find_relevant_experts [expertA, expertB] "stock outlook" 2 =
      [expertA, expertB] := by
  constructor
  · intro all q lim
    unfold find_relevant_experts
    dsimp only
    have hsorted := pairwise_sortLe
      (fun a b : Expert × Int => decide (a.2 ≤ b.2))
      (fun a b c hab hbc => by
        simp only [decide_eq_true_eq] at *
        omega)
      (fun a b => by
        rcases le_total a.2 b.2 with h' | h'
        · left; simpa using h'
        · right; simpa using h')
      (all.map (fun e => (e, effectiveKey q e)))
    have htake := List.Pairwise.sublist (List.take_sublist lim _) hsorted
    rw [List.pairwise_map]
    refine List.Pairwise.imp_of_mem ?_ htake
    intro a b ha hb hab
    have hmem : ∀ p : Expert × Int,
        p ∈ List.take lim (sortLe (fun a b : Expert × Int => decide (a.2 ≤ b.2))
          (all.map (fun e => (e, effectiveKey q e)))) →
        p.2 = effectiveKey q p.1 := by
      intro p hp
      have hp' : p ∈ all.map (fun e => (e, effectiveKey q e)) :=
        (mem_sortLe _ _ _).mp ((List.take_sublist lim _).subset hp)
      rcases List.mem_map.mp hp' with ⟨e', _, rfl⟩
      rfl
    have ha' := hmem a ha
    have hb' := hmem b hb
    simp only [decide_eq_true_eq] at hab
    rw [← ha', ← hb']
    exact hab
  · decide


/-- A successful terminal finalization stamps exactly the supplied round
number into `iteration_count`. -/
theorem finalizeResult_ok (r : AnalysisResult) (i : Nat) (acc : List SearchResult)
    (final : AnalysisResult) (h : finalizeResult r i acc = Except.ok final) :
    final.iteration_count = i := by
  unfold finalizeResult at h
  cases hd : pySetList acc with
  | error e => rw [hd] at h; exact Except.noConfusion h
  | ok d =>
    rw [hd] at h
    injection h with h
    subst h
    rfl

/-- Loop invariant of the iteration controller: whenever the loop started
with `iteration` rounds already executed and at most `n` more permitted
returns a result, the reported round count carries the stamped
`iteration_count`, lies between `iteration` and `iteration + n`, and is
strictly above `iteration` when the loop was entered with no result yet. -/
theorem runAux_ok_some
    (roundFn : Nat → String → Except PyError AnalysisResult)
    (gapFn : Nat → AnalysisResult → List String × List String)
    (threshold : ℚ) (query : String) :
    ∀ (n iteration : Nat) (curQuery : String) (acc : List SearchResult)
      (last : Option AnalysisResult) (res : AnalysisResult) (rounds : Nat),
      runAux roundFn gapFn threshold query n iteration curQuery acc last =
        Except.ok (some res, rounds) →
      res.iteration_count = rounds ∧ iteration ≤ rounds ∧
        rounds ≤ iteration + n ∧ (last = none → iteration < rounds) := by
  intro n
  induction n with
  | zero =>
    intro iteration curQuery acc last res rounds h
    cases last with
    | none =>
      simp only [runAux] at h
      injection h with h
      rw [Prod.mk.injEq] at h
      exact Option.noConfusion h.1
    | some r =>
      simp only [runAux] at h
      cases hf : finalizeResult r iteration acc with
      | error e => rw [hf] at h; exact Except.noConfusion h
      | ok final =>
        rw [hf] at h
        injection h with h
        rw [Prod.mk.injEq] at h
        obtain ⟨h1, h2⟩ := h
        obtain rfl := Option.some.inj h1
        subst h2
        exact ⟨finalizeResult_ok r iteration acc _ hf, le_refl _, by omega,
          fun hc => Option.noConfusion hc⟩
  | succ n ih =>
    intro iteration curQuery acc last res rounds h
    simp only [runAux] at h
    cases hr : roundFn (iteration + 1) curQuery with
    | error e => rw [hr] at h; exact Except.noConfusion h
    | ok r =>
      rw [hr] at h
      dsimp only at h
      by_cases hsc : threshold ≤ calculate_consensus r.expert_analyses
      · rw [if_pos hsc] at h
        cases hf : finalizeResult r (iteration + 1) (acc ++ r.search_results) with
        | error e => rw [hf] at h; exact Except.noConfusion h
        | ok final =>
          rw [hf] at h
          injection h with h
          rw [Prod.mk.injEq] at h
          obtain ⟨h1, h2⟩ := h
          obtain rfl := Option.some.inj h1
          subst h2
          exact ⟨finalizeResult_ok _ _ _ _ hf, by omega, by omega, fun _ => by omega⟩
      · rw [if_neg hsc] at h
        by_cases hrem : 0 < n
        · rw [if_pos hrem] at h
          by_cases hgq : (gapFn (iteration + 1) r).2 = []
          · rw [if_pos hgq] at h
            cases hf : finalizeResult r (iteration + 1) (acc ++ r.search_results) with
            | error e => rw [hf] at h; exact Except.noConfusion h
            | ok final =>
              rw [hf] at h
              injection h with h
              rw [Prod.mk.injEq] at h
              obtain ⟨h1, h2⟩ := h
              obtain rfl := Option.some.inj h1
              subst h2
              exact ⟨finalizeResult_ok _ _ _ _ hf, by omega, by omega,
                fun _ => by omega⟩
          · rw [if_neg hgq] at h
            obtain ⟨hic, hle, hub, _⟩ :=
              ih (iteration + 1) _ _ (some r) res rounds h
            exact ⟨hic, by omega, by omega, fun _ => by omega⟩
        · rw [if_neg hrem] at h
          obtain ⟨hic, hle, hub, _⟩ :=
            ih (iteration + 1) _ _ (some r) res rounds h
          exact ⟨hic, by omega, by omega, fun _ => by omega⟩

/-- C7: whenever the iteration controller returns an `AnalysisResult`,
the number of rounds executed is between 1 and the configured
`max_iterations` budget, and the result's `iteration_count` field equals
the number of rounds actually executed. -/
theorem iterRun_iteration_count
    (roundFn : Nat → String → Except PyError AnalysisResult)
    (gapFn : Nat → AnalysisResult → List String × List String)
    (threshold : ℚ) (max_iterations : Nat) (query : String)
    (res : AnalysisResult) (rounds : Nat)
    (h : iterRun roundFn gapFn threshold max_iterations query =
      Except.ok (some res, rounds)) :
    res.iteration_count = rounds ∧ rounds ≤ max_iterations ∧ 1 ≤ rounds := by
  obtain ⟨hic, _, hub, hlb⟩ :=
    runAux_ok_some roundFn gapFn threshold query max_iterations 0 query [] none
      res rounds h
  have hpos : 0 < rounds := hlb rfl
  exact ⟨hic, by omega, by omega⟩

/-- Witness for `iterRun_iteration_count`: a one-round budget with an
empty round result and threshold 1 terminates by consensus after round 1. -/
theorem iterRun_iteration_count_witness :
    ({ emptyRoundResult with iteration_count := 1 } : AnalysisResult).iteration_count = 1 ∧
    1 ≤ (1 : Nat) ∧ 1 ≤ (1 : Nat) :=
  iterRun_iteration_count (constRound emptyRoundResult) noGaps 1 1 "q"
    { emptyRoundResult with iteration_count := 1 } 1 rfl

